import Mathlib

/-!
# Verification of the LSRIS mathematical engine (`src/utils/math.ts`)

Shallow embedding of the analytics engine over the real numbers.
JavaScript `number` arithmetic is modelled by `ℝ` (exact real arithmetic;
the spec states its properties "within floating-point tolerance", which the
real model captures exactly).  The `NaN` sentinel used by the moving-average
warm-up prefixes is modelled by `Option ℝ` (`none` = `NaN`), since `ℝ` has no
`NaN`; `Math.round` is modelled by `⌊x + 1/2⌋ : ℤ` (the ECMAScript
definition of `Math.round` for finite arguments); `Math.sqrt` is `Real.sqrt`.
Natural-number subtraction `a - b` on indices coincides with the JavaScript
`Math.max(0, a - b)` clamping used by `Array.prototype.slice`.
-/

namespace LSRIS

noncomputable section

open Classical

/-- JavaScript `Array.prototype.slice(a, b)` for `0 ≤ a ≤ b`: the elements
from index `a` (inclusive) to `b` (exclusive). -/
def jsSlice (l : List ℝ) (a b : ℕ) : List ℝ :=
  (l.drop a).take (b - a)

/-- ECMAScript `Math.round` (finite arguments): `⌊x + 1/2⌋`. -/
def jsRound (x : ℝ) : ℤ :=
  ⌊x + 1 / 2⌋

/-- `mean(values)` from `math.ts`: arithmetic mean, `0` for the empty list. -/
def mean (values : List ℝ) : ℝ :=
  if values.length = 0 then 0 else values.sum / values.length

/-- `stdDev(values)` from `math.ts`: population standard deviation
(divide by `n`), `0` for fewer than two values. -/
def stdDev (values : List ℝ) : ℝ :=
  if values.length < 2 then 0
  else Real.sqrt ((values.map (fun v => (v - mean values) ^ 2)).sum / values.length)

/-- `coefficientOfVariation(values)` from `math.ts`: `stdDev/mean`,
`0` when the mean is `0`. -/
def coefficientOfVariation (values : List ℝ) : ℝ :=
  if mean values = 0 then 0 else stdDev values / mean values

/-- Result record of `linearRegression` (slope, intercept, `predict`
closure, `r_squared`). -/
structure RegResult where
  slope : ℝ
  intercept : ℝ
  predict : ℝ → ℝ
  r_squared : ℝ

/-- `linearRegression(values)` from `math.ts`: ordinary least squares over
the implicit index `0..n-1`.  For `n < 2` it returns the flat line at
`values[0] || 0` (modelled by `values.headD 0`).  The single source loop
accumulating `ssxy`, `ssxx`, `ssyy` is modelled by three list sums over the
same index range. -/
def linearRegression (values : List ℝ) : RegResult :=
  let n := values.length
  if n < 2 then
    { slope := 0, intercept := values.headD 0,
      predict := fun _ => values.headD 0, r_squared := 0 }
  else
    let xs : List ℝ := (List.range n).map (Nat.cast : ℕ → ℝ)
    let xMean := xs.sum / n
    let yMean := values.sum / n
    let ssxy := ((xs.zip values).map (fun p => (p.1 - xMean) * (p.2 - yMean))).sum
    let ssxx := (xs.map (fun x => (x - xMean) ^ 2)).sum
    let ssyy := (values.map (fun y => (y - yMean) ^ 2)).sum
    let slope := if ssxx = 0 then 0 else ssxy / ssxx
    { slope := slope,
      intercept := yMean - slope * xMean,
      predict := fun x => slope * x + (yMean - slope * xMean),
      r_squared := if ssyy = 0 then 0 else ssxy ^ 2 / (ssxx * ssyy) }

/-- `movingAverage(values, window)` from `math.ts`: trailing arithmetic mean;
positions `i < window - 1` hold the `NaN` marker (`none`).  (For `window = 0`
the JavaScript code would produce `NaN` by `0/0` where this model yields `0`;
all specified uses have `window ≥ 1`, where the model is exact.) -/
def movingAverage (values : List ℝ) (window : ℕ) : List (Option ℝ) :=
  (List.range values.length).map (fun i =>
    if i < window - 1 then none
    else some ((jsSlice values (i + 1 - window) (i + 1)).sum / (window : ℝ)))

/-- The tail recursion of `exponentialMovingAverage`:
`result[i] = α·values[i] + (1-α)·result[i-1]`. -/
def emaAux (alpha : ℝ) (prev : ℝ) : List ℝ → List ℝ
  | [] => []
  | v :: rest =>
    let e := alpha * v + (1 - alpha) * prev
    e :: emaAux alpha e rest

/-- `exponentialMovingAverage(values, alpha)` from `math.ts`: first output
seeds itself with `values[0]`; no warm-up gap (hence `List ℝ`, not
`List (Option ℝ)`). -/
def exponentialMovingAverage (values : List ℝ) (alpha : ℝ) : List ℝ :=
  match values with
  | [] => []
  | v :: rest => v :: emaAux alpha v rest

/-- `weightedMovingAverage(values, window)` from `math.ts`: linearly
increasing weights `1..window`, normalized by their sum; same `NaN`
(`none`) warm-up prefix as `movingAverage`. -/
def weightedMovingAverage (values : List ℝ) (window : ℕ) : List (Option ℝ) :=
  let weights : List ℝ := (List.range window).map (fun j => ((j + 1 : ℕ) : ℝ))
  let weightSum := weights.sum
  (List.range values.length).map (fun i =>
    if i < window - 1 then none
    else some
      ((((jsSlice values (i + 1 - window) (i + 1)).zip weights).map
          (fun p => p.1 * p.2)).sum / weightSum))

/-- `pearsonCorrelation(xs, ys)` from `math.ts` over the overlapping prefix
of length `n = min |xs| |ys|`; `0` for `n < 2` or zero variance on either
side. -/
def pearsonCorrelation (xs ys : List ℝ) : ℝ :=
  let n := min xs.length ys.length
  if n < 2 then 0
  else
    let xs' := xs.take n
    let ys' := ys.take n
    let xMean := mean xs'
    let yMean := mean ys'
    let num := ((xs'.zip ys').map (fun p => (p.1 - xMean) * (p.2 - yMean))).sum
    let dx2 := (xs'.map (fun x => (x - xMean) ^ 2)).sum
    let dy2 := (ys'.map (fun y => (y - yMean) ^ 2)).sum
    if dx2 = 0 ∨ dy2 = 0 then 0 else num / Real.sqrt (dx2 * dy2)

/-- One row of `sensitivitySimulation`. -/
structure SensitivityResult where
  scenario : String
  price_change : ℝ
  quantity_change : ℝ
  estimated_revenue : ℝ
  estimated_profit : ℝ

/-- `sensitivitySimulation(baseRevenue, baseQuantity, basePrice, totalCost)`
from `math.ts`: the fixed catalog of 7 price/quantity perturbations.
`baseRevenue` is accepted but unused, exactly as in the source. -/
def sensitivitySimulation (baseRevenue baseQuantity basePrice totalCost : ℝ) :
    List SensitivityResult :=
  let scenarios : List (String × ℝ × ℝ) :=
    [("Base", 0, 0),
     ("+5% Price", 0.05, 0),
     ("-5% Price", -0.05, 0),
     ("+10% Qty", 0, 0.10),
     ("-10% Qty", 0, -0.10),
     ("+5% Price, +10% Qty", 0.05, 0.10),
     ("-5% Price, -10% Qty", -0.05, -0.10)]
  scenarios.map (fun s =>
    let newPrice := basePrice * (1 + s.2.1)
    let newQty := baseQuantity * (1 + s.2.2)
    let rev := newPrice * newQty
    { scenario := s.1,
      price_change := s.2.1 * 100,
      quantity_change := s.2.2 * 100,
      estimated_revenue := rev,
      estimated_profit := rev - totalCost })

/-- One output point of `additiveDecomposition`; the date type is kept
abstract (the source only ever asks a date for its weekday). -/
structure DecompPoint (α : Type) where
  date : α
  revenue : ℝ
  trend : ℝ
  seasonal : ℝ
  residual : ℝ

/-- `additiveDecomposition(dates, revenues)` from `math.ts`.  The JavaScript
`new Date(d).getDay()` weekday extraction is abstracted into a parameter
`getDay : α → Fin 7`, so the theorems hold for every date parser.  The
accumulation loop over `weekdayTotals`/`weekdayCounts` is modelled by a
filtered sum/count per weekday (loop order is irrelevant to a sum). -/
def additiveDecomposition {α : Type} (getDay : α → Fin 7)
    (dates : List α) (revenues : List ℝ) : List (DecompPoint α) :=
  let n := revenues.length
  let reg := linearRegression revenues
  let trends := (List.range n).map (fun i => reg.predict i)
  let onDay : Fin 7 → List ℕ := fun d =>
    (List.range n).filter (fun i => decide ((dates.get? i).map getDay = some d))
  let weekdayAvg : Fin 7 → ℝ := fun d =>
    if 0 < (onDay d).length then
      (((onDay d).map (fun i => revenues.getD i 0 - trends.getD i 0)).sum : ℝ) /
        ((onDay d).length : ℝ)
    else 0
  let avgSeasonal := mean ((List.finRange 7).map weekdayAvg)
  let seasonalAdj : Fin 7 → ℝ := fun d => weekdayAvg d - avgSeasonal
  dates.enum.map (fun p =>
    let seasonal := seasonalAdj (getDay p.2)
    let trend := trends.getD p.1 0
    { date := p.2,
      revenue := revenues.getD p.1 0,
      trend := trend,
      seasonal := seasonal,
      residual := revenues.getD p.1 0 - trend - seasonal })

/-- `detectStructuralBreaks(values, sensitivity)` from `math.ts`: the loop
`for (i = 5; i < n - 5; i++)` is the range `[5, …, n-6]`
(`List.range' 5 (n - 10)`), and `ℕ` subtraction reproduces the
`Math.max(0, i-5)` / `Math.min(n, i+5)` slice clamping. -/
def detectStructuralBreaks (values : List ℝ) (sensitivity : ℝ) : List ℕ :=
  let sigma := stdDev values
  (List.range' 5 (values.length - 5 - 5)).filter (fun i =>
    decide (|mean (jsSlice values (i - 5) i) -
              mean (jsSlice values i (min values.length (i + 5)))| >
            sensitivity * sigma))

/-- Parameter record of `enterpriseHealthIndex`. -/
structure HealthParams where
  cagr : ℝ
  cv : ℝ
  profit_margin : ℝ
  mape : ℝ

/-- The four rounded components of the health index (`ℤ`: `Math.round`
yields integers). -/
structure HealthComponents where
  growth : ℤ
  stability : ℤ
  profitability : ℤ
  forecast_reliability : ℤ

/-- Result of `enterpriseHealthIndex`. -/
structure HealthIndex where
  score : ℤ
  components : HealthComponents

/-- `growthScore` inside `enterpriseHealthIndex`: `clamp₀¹⁰⁰(50 + cagr·100)`. -/
def growthScoreRaw (p : HealthParams) : ℝ :=
  min 100 (max 0 (50 + p.cagr * 100))

/-- `stabilityScore` inside `enterpriseHealthIndex`: `clamp₀¹⁰⁰((1 - cv)·100)`. -/
def stabilityScoreRaw (p : HealthParams) : ℝ :=
  min 100 (max 0 ((1 - p.cv) * 100))

/-- `profitScore` inside `enterpriseHealthIndex`: `clamp₀¹⁰⁰(profit_margin · 2)`
— note the factor is `2`, exactly as in the source line
`Math.min(100, Math.max(0, params.profit_margin * 2))`. -/
def profitScoreRaw (p : HealthParams) : ℝ :=
  min 100 (max 0 (p.profit_margin * 2))

/-- `forecastScore` inside `enterpriseHealthIndex`: `clamp₀¹⁰⁰(100 - mape·2)`. -/
def forecastScoreRaw (p : HealthParams) : ℝ :=
  min 100 (max 0 (100 - p.mape * 2))

/-- `enterpriseHealthIndex(params)` from `math.ts`. -/
def enterpriseHealthIndex (p : HealthParams) : HealthIndex :=
  { score := jsRound (0.25 * growthScoreRaw p + 0.25 * stabilityScoreRaw p +
      0.25 * profitScoreRaw p + 0.25 * forecastScoreRaw p),
    components :=
      { growth := jsRound (growthScoreRaw p),
        stability := jsRound (stabilityScoreRaw p),
        profitability := jsRound (profitScoreRaw p),
        forecast_reliability := jsRound (forecastScoreRaw p) } }

/-- One output point of `generateForecast`. -/
structure ForecastPoint where
  linear : ℝ
  ma : ℝ
  ema : ℝ
  wma : ℝ
  lower : ℝ
  upper : ℝ

/-- Fallback record used with `List.getD` when stating theorems about
forecast points. -/
def fpZero : ForecastPoint :=
  { linear := 0, ma := 0, ema := 0, wma := 0, lower := 0, upper := 0 }

/-- `generateForecast(revenues, periods, maWindow, emaAlpha)` from `math.ts`.
`filter(r => !isNaN(r))` on the OLS residuals is the identity over `ℝ`
(residuals of real inputs are never `NaN`) and is dropped;
`.filter(v => !isNaN(v))` on the MA/WMA series is `List.filterMap id` on the
`Option`-valued model; `.at(-1) || 0` is `List.getLastD · 0` (for a last
value of `0`, JavaScript `0 || 0` also yields `0`). -/
def generateForecast (revenues : List ℝ) (periods : ℕ) (maWindow : ℕ)
    (emaAlpha : ℝ) : List ForecastPoint :=
  let reg := linearRegression revenues
  let emaVals := exponentialMovingAverage revenues emaAlpha
  let residuals := (List.range revenues.length).map
    (fun i => revenues.getD i 0 - reg.predict i)
  let se := stdDev residuals
  let lastMA := ((movingAverage revenues maWindow).filterMap id).getLastD 0
  let lastEMA := emaVals.getLastD 0
  let lastWMA := ((weightedMovingAverage revenues maWindow).filterMap id).getLastD 0
  let n := revenues.length
  (List.range periods).map (fun (i : ℕ) =>
    let linear := reg.predict ((n : ℝ) + (i : ℝ))
    { linear := linear, ma := lastMA, ema := lastEMA, wma := lastWMA,
      lower := linear - 1.96 * se, upper := linear + 1.96 * se })

/-- The perfectly linear series `[0, 1, …, n-1]` of §8's regression
round-trip property. -/
def linSeries (n : ℕ) : List ℝ :=
  (List.range n).map (Nat.cast : ℕ → ℝ)

/-! ## Helper lemmas -/

theorem jsRound_eq_of (x : ℝ) (z : ℤ) (h1 : (z : ℝ) ≤ x + 1 / 2)
    (h2 : x + 1 / 2 < z + 1) : jsRound x = z := by
  unfold jsRound
  exact Int.floor_eq_iff.mpr ⟨h1, by exact_mod_cast h2⟩

theorem jsRound_nonneg (x : ℝ) (h : 0 ≤ x) : 0 ≤ jsRound x := by
  unfold jsRound
  exact Int.le_floor.mpr (by push_cast; linarith)

theorem jsRound_le_hundred (x : ℝ) (h : x ≤ 100) : jsRound x ≤ 100 := by
  unfold jsRound
  have : ⌊x + 1 / 2⌋ < 101 := Int.floor_lt.mpr (by push_cast; linarith)
  omega

theorem clamp_nonneg (t : ℝ) : 0 ≤ min 100 (max 0 t) :=
  le_min (by norm_num) (le_max_left 0 t)

theorem clamp_le_hundred (t : ℝ) : min 100 (max 0 t) ≤ 100 :=
  min_le_left 100 (max 0 t)

/-! ## Claims -/

/-- C1 (code bug): calling `enterpriseHealthIndex` with
`cagr = 0, cv = 0, profit_margin = 0.25` (a fraction, as both in-repo callers
pass and as the spec describes), `mape = 0` does NOT yield
`profitability = 50` and `score = 75`: the source multiplies the margin by
`2` instead of `200`, so the profitability component is `round(0.5) = 1` and
the overall score is `round(62.625) = 63`.  This theorem evaluates the code
at the failing input. -/
theorem healthIndex_fraction_margin_bug :
    (enterpriseHealthIndex ⟨0, 0, 1 / 4, 0⟩).components.growth = 50 ∧
    (enterpriseHealthIndex ⟨0, 0, 1 / 4, 0⟩).components.stability = 100 ∧
    (enterpriseHealthIndex ⟨0, 0, 1 / 4, 0⟩).components.profitability = 1 ∧
    (enterpriseHealthIndex ⟨0, 0, 1 / 4, 0⟩).components.forecast_reliability = 100 ∧
    (enterpriseHealthIndex ⟨0, 0, 1 / 4, 0⟩).score = 63 := by
  have hg : growthScoreRaw ⟨0, 0, 1 / 4, 0⟩ = 50 := by
    unfold growthScoreRaw; norm_num
  have hs : stabilityScoreRaw ⟨0, 0, 1 / 4, 0⟩ = 100 := by
    unfold stabilityScoreRaw; norm_num
  have hp : profitScoreRaw ⟨0, 0, 1 / 4, 0⟩ = 1 / 2 := by
    unfold profitScoreRaw; norm_num
  have hf : forecastScoreRaw ⟨0, 0, 1 / 4, 0⟩ = 100 := by
    unfold forecastScoreRaw; norm_num
  unfold enterpriseHealthIndex
  rw [hg, hs, hp, hf]
  refine ⟨?_, ?_, ?_, ?_, ?_⟩
  · exact jsRound_eq_of _ 50 (by norm_num) (by norm_num)
  · exact jsRound_eq_of _ 100 (by norm_num) (by norm_num)
  · exact jsRound_eq_of _ 1 (by norm_num) (by norm_num)
  · exact jsRound_eq_of _ 100 (by norm_num) (by norm_num)
  · exact jsRound_eq_of _ 63 (by norm_num) (by norm_num)

/-- C2: for all real inputs, `enterpriseHealthIndex` returns an integer
score in `[0,100]` and four integer components in `[0,100]` (integrality is
the `ℤ` codomain of the `Math.round` model), where the score is the rounding
of the equally-weighted (`0.25` each) sum of the four unrounded sub-scores,
each individually clamped to `[0,100]` before averaging. -/
theorem healthIndex_bounds_and_weighting (p : HealthParams) :
    (0 ≤ (enterpriseHealthIndex p).score ∧ (enterpriseHealthIndex p).score ≤ 100) ∧
    (0 ≤ (enterpriseHealthIndex p).components.growth ∧
      (enterpriseHealthIndex p).components.growth ≤ 100) ∧
    (0 ≤ (enterpriseHealthIndex p).components.stability ∧
      (enterpriseHealthIndex p).components.stability ≤ 100) ∧
    (0 ≤ (enterpriseHealthIndex p).components.profitability ∧
      (enterpriseHealthIndex p).components.profitability ≤ 100) ∧
    (0 ≤ (enterpriseHealthIndex p).components.forecast_reliability ∧
      (enterpriseHealthIndex p).components.forecast_reliability ≤ 100) ∧
    (0 ≤ growthScoreRaw p ∧ growthScoreRaw p ≤ 100) ∧
    (0 ≤ stabilityScoreRaw p ∧ stabilityScoreRaw p ≤ 100) ∧
    (0 ≤ profitScoreRaw p ∧ profitScoreRaw p ≤ 100) ∧
    (0 ≤ forecastScoreRaw p ∧ forecastScoreRaw p ≤ 100) ∧
    (enterpriseHealthIndex p).score =
      jsRound (0.25 * (growthScoreRaw p + stabilityScoreRaw p +
        profitScoreRaw p + forecastScoreRaw p)) ∧
    (enterpriseHealthIndex p).components.growth = jsRound (growthScoreRaw p) ∧
    (enterpriseHealthIndex p).components.stability = jsRound (stabilityScoreRaw p) ∧
    (enterpriseHealthIndex p).components.profitability = jsRound (profitScoreRaw p) ∧
    (enterpriseHealthIndex p).components.forecast_reliability =
      jsRound (forecastScoreRaw p) := by
  have hg : 0 ≤ growthScoreRaw p ∧ growthScoreRaw p ≤ 100 :=
    ⟨clamp_nonneg _, clamp_le_hundred _⟩
  have hs : 0 ≤ stabilityScoreRaw p ∧ stabilityScoreRaw p ≤ 100 :=
    ⟨clamp_nonneg _, clamp_le_hundred _⟩
  have hp : 0 ≤ profitScoreRaw p ∧ profitScoreRaw p ≤ 100 :=
    ⟨clamp_nonneg _, clamp_le_hundred _⟩
  have hf : 0 ≤ forecastScoreRaw p ∧ forecastScoreRaw p ≤ 100 :=
    ⟨clamp_nonneg _, clamp_le_hundred _⟩
  have hsum : 0 ≤ 0.25 * growthScoreRaw p + 0.25 * stabilityScoreRaw p +
      0.25 * profitScoreRaw p + 0.25 * forecastScoreRaw p ∧
      0.25 * growthScoreRaw p + 0.25 * stabilityScoreRaw p +
      0.25 * profitScoreRaw p + 0.25 * forecastScoreRaw p ≤ 100 :=
    ⟨by linarith [hg.1, hs.1, hp.1, hf.1], by linarith [hg.2, hs.2, hp.2, hf.2]⟩
  refine ⟨⟨jsRound_nonneg _ hsum.1, jsRound_le_hundred _ hsum.2⟩,
    ⟨jsRound_nonneg _ hg.1, jsRound_le_hundred _ hg.2⟩,
    ⟨jsRound_nonneg _ hs.1, jsRound_le_hundred _ hs.2⟩,
    ⟨jsRound_nonneg _ hp.1, jsRound_le_hundred _ hp.2⟩,
    ⟨jsRound_nonneg _ hf.1, jsRound_le_hundred _ hf.2⟩,
    hg, hs, hp, hf, ?_, rfl, rfl, rfl, rfl⟩
  show jsRound _ = jsRound _
  congr 1
  ring

/-- C6: `sensitivitySimulation` returns exactly the 7 scenarios in the fixed
order, each with `estimated_revenue = basePrice·(1+Δp) · (baseQuantity·(1+Δq))`
and `estimated_profit = estimated_revenue - totalCost`; the `Base` scenario's
revenue is `basePrice · baseQuantity` exactly. -/
theorem sensitivity_seven_scenarios (br bq bp tc : ℝ) :
    sensitivitySimulation br bq bp tc =
      [⟨"Base", 0, 0, bp * bq, bp * bq - tc⟩,
       ⟨"+5% Price", 5, 0, bp * (1 + 5 / 100) * bq, bp * (1 + 5 / 100) * bq - tc⟩,
       ⟨"-5% Price", -5, 0, bp * (1 - 5 / 100) * bq, bp * (1 - 5 / 100) * bq - tc⟩,
       ⟨"+10% Qty", 0, 10, bp * (bq * (1 + 10 / 100)), bp * (bq * (1 + 10 / 100)) - tc⟩,
       ⟨"-10% Qty", 0, -10, bp * (bq * (1 - 10 / 100)), bp * (bq * (1 - 10 / 100)) - tc⟩,
       ⟨"+5% Price, +10% Qty", 5, 10, bp * (1 + 5 / 100) * (bq * (1 + 10 / 100)),
         bp * (1 + 5 / 100) * (bq * (1 + 10 / 100)) - tc⟩,
       ⟨"-5% Price, -10% Qty", -5, -10, bp * (1 - 5 / 100) * (bq * (1 - 10 / 100)),
         bp * (1 - 5 / 100) * (bq * (1 - 10 / 100)) - tc⟩] := by
  simp only [sensitivitySimulation, List.map_cons, List.map_nil, List.cons.injEq,
    SensitivityResult.mk.injEq, and_true, List.nil_eq]
  norm_num

/-- C7: the neutral-default policy: `mean [] = 0`; `coefficientOfVariation`
returns `0` when the mean is `0`; `pearsonCorrelation` returns `0` with
fewer than 2 paired points or when either side of the overlapping prefix has
zero sum of squared deviations (zero variance); `linearRegression` on fewer
than 2 values returns slope `0`, `r_squared 0`, and a constant `predict`
equal to the single observed value (`0` for empty input).  All functions are
total, so none of these cases errors. -/
theorem neutral_defaults :
    mean ([] : List ℝ) = 0 ∧
    (∀ values : List ℝ, mean values = 0 → coefficientOfVariation values = 0) ∧
    (∀ xs ys : List ℝ, min xs.length ys.length < 2 → pearsonCorrelation xs ys = 0) ∧
    (∀ xs ys : List ℝ,
      (((xs.take (min xs.length ys.length)).map
          (fun x => (x - mean (xs.take (min xs.length ys.length))) ^ 2)).sum = 0 ∨
       ((ys.take (min xs.length ys.length)).map
          (fun y => (y - mean (ys.take (min xs.length ys.length))) ^ 2)).sum = 0) →
      pearsonCorrelation xs ys = 0) ∧
    (∀ values : List ℝ, values.length < 2 →
      (linearRegression values).slope = 0 ∧
      (linearRegression values).r_squared = 0 ∧
      ∀ x : ℝ, (linearRegression values).predict x = values.headD 0) := by
  refine ⟨by simp [mean], ?_, ?_, ?_, ?_⟩
  · intro values h
    unfold coefficientOfVariation
    rw [if_pos h]
  · intro xs ys h
    unfold pearsonCorrelation
    rw [if_pos h]
  · intro xs ys h
    unfold pearsonCorrelation
    by_cases hn : min xs.length ys.length < 2
    · rw [if_pos hn]
    · rw [if_neg hn]
      simp only
      rw [if_pos h]
  · intro values h
    unfold linearRegression
    rw [if_pos h]
    exact ⟨rfl, rfl, fun _ => rfl⟩

/-- C8: for `window ≥ 1`, `movingAverage` and `weightedMovingAverage`
preserve the input length, mark the first `window - 1` positions with the
undefined marker `none` (distinguishable from every numeric value `some x`,
in particular `some 0`), and hold a defined number `some x` at every
position `≥ window - 1`; `exponentialMovingAverage` preserves the length,
has no undefined prefix (its codomain is `ℝ`, not `Option ℝ`), and its first
entry equals the first input value. -/
theorem smoothing_warmup_markers (values : List ℝ) (window : ℕ) (alpha : ℝ)
    (hw : 1 ≤ window) :
    (movingAverage values window).length = values.length ∧
    (weightedMovingAverage values window).length = values.length ∧
    (∀ i : ℕ, i < values.length → i < window - 1 →
      (movingAverage values window).get? i = some none ∧
      (weightedMovingAverage values window).get? i = some none) ∧
    (∀ i : ℕ, i < values.length → window - 1 ≤ i →
      (∃ x : ℝ, (movingAverage values window).get? i = some (some x)) ∧
      (∃ x : ℝ, (weightedMovingAverage values window).get? i = some (some x))) ∧
    (∀ x : ℝ, (some 0 : Option ℝ) ≠ none ∧ (some x : Option ℝ) ≠ none) ∧
    (exponentialMovingAverage values alpha).length = values.length ∧
    (exponentialMovingAverage values alpha).head? = values.head? := by
  have hma : ∀ i : ℕ, i < values.length →
      (movingAverage values window).get? i =
        some (if i < window - 1 then none
          else some ((jsSlice values (i + 1 - window) (i + 1)).sum / (window : ℝ))) := by
    intro i hi
    unfold movingAverage
    rw [List.get?_map, List.get?_range hi]
    rfl
  have hwma : ∀ i : ℕ, i < values.length →
      (weightedMovingAverage values window).get? i =
        some (if i < window - 1 then none
          else some
            ((((jsSlice values (i + 1 - window) (i + 1)).zip
                ((List.range window).map (fun j => ((j + 1 : ℕ) : ℝ)))).map
                (fun p => p.1 * p.2)).sum /
              ((List.range window).map (fun j => ((j + 1 : ℕ) : ℝ))).sum)) := by
    intro i hi
    unfold weightedMovingAverage
    rw [List.get?_map, List.get?_range hi]
    rfl
  have hemalen : ∀ (a prev : ℝ) (l : List ℝ), (emaAux a prev l).length = l.length := by
    intro a prev l
    induction l generalizing prev with
    | nil => rfl
    | cons v rest ih => simp [emaAux, ih]
  refine ⟨?_, ?_, ?_, ?_, ?_, ?_, ?_⟩
  · unfold movingAverage
    rw [List.length_map, List.length_range]
  · unfold weightedMovingAverage
    rw [List.length_map, List.length_range]
  · intro i hi hlt
    rw [hma i hi, hwma i hi, if_pos hlt, if_pos hlt]
    exact ⟨rfl, rfl⟩
  · intro i hi hge
    have hlt : ¬ i < window - 1 := not_lt.mpr hge
    rw [hma i hi, hwma i hi, if_neg hlt, if_neg hlt]
    exact ⟨⟨_, rfl⟩, ⟨_, rfl⟩⟩
  · intro x
    exact ⟨Option.some_ne_none 0, Option.some_ne_none x⟩
  · cases values with
    | nil => rfl
    | cons v rest =>
      unfold exponentialMovingAverage
      simp [hemalen]
  · cases values with
    | nil => rfl
    | cons v rest => rfl

/-- C3: every point of `additiveDecomposition` satisfies
`revenue = trend + seasonal + residual` exactly: the residual is defined as
`revenue - trend - seasonal`, never independently estimated.  (The length
hypothesis mirrors the aligned `(date, revenue)` input contract; the real
model is exact where the spec allows floating-point epsilon.) -/
theorem decomposition_additive_invariant {α : Type} (getDay : α → Fin 7)
    (dates : List α) (revenues : List ℝ) (d : DecompPoint α)
    (hlen : dates.length = revenues.length)
    (i : ℕ) (hi : i < (additiveDecomposition getDay dates revenues).length) :
    ((additiveDecomposition getDay dates revenues).getD i d).revenue =
      ((additiveDecomposition getDay dates revenues).getD i d).trend +
      ((additiveDecomposition getDay dates revenues).getD i d).seasonal +
      ((additiveDecomposition getDay dates revenues).getD i d).residual := by
  rw [List.getD_eq_getElem?_getD, List.getElem?_eq_getElem hi, Option.getD_some]
  have hmap : ∀ h' : i < (additiveDecomposition getDay dates revenues).length,
      (additiveDecomposition getDay dates revenues)[i].revenue =
        (additiveDecomposition getDay dates revenues)[i].trend +
        (additiveDecomposition getDay dates revenues)[i].seasonal +
        (additiveDecomposition getDay dates revenues)[i].residual := by
    intro h'
    unfold additiveDecomposition at h' ⊢
    rw [List.getElem_map]
    simp only
    ring
  exact hmap hi

/-- C9: `linearRegression` on the perfectly linear series `[0, 1, …, n-1]`
(`n ≥ 2`) yields slope `1`, intercept `0` and `r_squared 1`, exactly, in
real arithmetic. -/
theorem regression_perfect_line (n : ℕ) (hn : 2 ≤ n) :
    (linearRegression (linSeries n)).slope = 1 ∧
    (linearRegression (linSeries n)).intercept = 0 ∧
    (linearRegression (linSeries n)).r_squared = 1 := by
  have hLlen : (linSeries n).length = n := by
    simp [linSeries]
  have hxs : (List.range (linSeries n).length).map (Nat.cast : ℕ → ℝ) = linSeries n := by
    rw [hLlen]; rfl
  set m : ℝ := (linSeries n).sum / ((linSeries n).length : ℝ) with hm
  have hzip : (((linSeries n).zip (linSeries n)).map
      (fun p => (p.1 - m) * (p.2 - m))).sum =
      ((linSeries n).map (fun x => (x - m) ^ 2)).sum := by
    induction (linSeries n) with
    | nil => rfl
    | cons v rest ih =>
      rw [List.zip_cons_cons, List.map_cons, List.map_cons, List.sum_cons,
        List.sum_cons, ih]
      ring_nf
  set S : ℝ := ((linSeries n).map (fun x => (x - m) ^ 2)).sum with hS
  have hSnonneg : ∀ y ∈ (linSeries n).map (fun x => (x - m) ^ 2), 0 ≤ y := by
    intro y hy
    obtain ⟨x, _, rfl⟩ := List.mem_map.mp hy
    exact sq_nonneg _
  have h0mem : (0 : ℝ) ∈ linSeries n := by
    unfold linSeries
    refine List.mem_map.mpr ⟨0, List.mem_range.mpr (by omega), by norm_num⟩
  have h1mem : (1 : ℝ) ∈ linSeries n := by
    unfold linSeries
    refine List.mem_map.mpr ⟨1, List.mem_range.mpr (by omega), by norm_num⟩
  have hSpos : 0 < S := by
    rcases eq_or_ne m 0 with hm0 | hm0
    · have h1 : ((1 : ℝ) - m) ^ 2 ≤ S :=
        List.single_le_sum hSnonneg _ (List.mem_map_of_mem _ h1mem)
      rw [hm0] at h1
      norm_num at h1
      linarith
    · have h0 : ((0 : ℝ) - m) ^ 2 ≤ S :=
        List.single_le_sum hSnonneg _ (List.mem_map_of_mem _ h0mem)
      have hne : ((0 : ℝ) - m) ≠ 0 := sub_ne_zero.mpr (Ne.symm hm0)
      have : 0 < ((0 : ℝ) - m) ^ 2 :=
        (sq_nonneg _).lt_of_ne (Ne.symm (pow_ne_zero 2 hne))
      linarith
  have hSne : S ≠ 0 := ne_of_gt hSpos
  have hn2 : ¬ (linSeries n).length < 2 := by rw [hLlen]; omega
  unfold linearRegression
  rw [if_neg hn2]
  simp only [hxs, hzip, ← hm, ← hS, if_neg hSne]
  refine ⟨div_self hSne, by rw [div_self hSne]; ring, ?_⟩
  rw [← sq S, div_self (pow_ne_zero 2 hSne)]

/-- C5: `detectStructuralBreaks(values, s)` returns exactly the indices
`i` with `5 ≤ i ≤ n-6` whose 5-point left mean (indices `i-5..i-1`) and
5-point right mean (indices `i..i+4`) differ in absolute value by more than
`s · σ(whole series)`, in ascending order with no merging of adjacent
flags. -/
theorem structural_breaks_spec (values : List ℝ) (s : ℝ) :
    List.Sorted (· < ·) (detectStructuralBreaks values s) ∧
    ∀ i : ℕ, i ∈ detectStructuralBreaks values s ↔
      5 ≤ i ∧ i ≤ values.length - 6 ∧
      |mean ((values.drop (i - 5)).take 5) - mean ((values.drop i).take 5)| >
        s * stdDev values := by
  constructor
  · unfold detectStructuralBreaks
    exact (List.pairwise_lt_range' 5 (values.length - 5 - 5)).sublist
      (List.filter_sublist _)
  · intro i
    unfold detectStructuralBreaks
    rw [List.mem_filter, List.mem_range'_1, decide_eq_true_iff]
    constructor
    · rintro ⟨⟨h5, hup⟩, hpred⟩
      have hle : i ≤ values.length - 6 := by omega
      have hL : jsSlice values (i - 5) i = (values.drop (i - 5)).take 5 := by
        unfold jsSlice
        congr 1
        omega
      have hR : jsSlice values i (min values.length (i + 5)) =
          (values.drop i).take 5 := by
        unfold jsSlice
        congr 1
        omega
      rw [hL, hR] at hpred
      exact ⟨h5, hle, hpred⟩
    · rintro ⟨h5, hle, hpred⟩
      have hup : i < 5 + (values.length - 5 - 5) := by omega
      have hL : jsSlice values (i - 5) i = (values.drop (i - 5)).take 5 := by
        unfold jsSlice
        congr 1
        omega
      have hR : jsSlice values i (min values.length (i + 5)) =
          (values.drop i).take 5 := by
        unfold jsSlice
        congr 1
        omega
      rw [hL, hR]
      exact ⟨⟨h5, hup⟩, hpred⟩

theorem stdDev_nonneg (l : List ℝ) : 0 ≤ stdDev l := by
  unfold stdDev
  split
  · exact le_refl 0
  · exact Real.sqrt_nonneg _

theorem generateForecast_getD (revenues : List ℝ) (periods maWindow : ℕ)
    (emaAlpha : ℝ) (j : ℕ) (hj : j < periods) :
    (generateForecast revenues periods maWindow emaAlpha).getD j fpZero =
      { linear := (linearRegression revenues).predict
          ((revenues.length : ℝ) + (j : ℝ)),
        ma := ((movingAverage revenues maWindow).filterMap id).getLastD 0,
        ema := (exponentialMovingAverage revenues emaAlpha).getLastD 0,
        wma := ((weightedMovingAverage revenues maWindow).filterMap id).getLastD 0,
        lower := (linearRegression revenues).predict
            ((revenues.length : ℝ) + (j : ℝ)) -
          1.96 * stdDev ((List.range revenues.length).map
            (fun k => revenues.getD k 0 - (linearRegression revenues).predict k)),
        upper := (linearRegression revenues).predict
            ((revenues.length : ℝ) + (j : ℝ)) +
          1.96 * stdDev ((List.range revenues.length).map
            (fun k => revenues.getD k 0 - (linearRegression revenues).predict k)) } := by
  unfold generateForecast
  rw [List.getD_eq_getElem?_getD, List.getElem?_map, List.getElem?_range hj]
  rfl

/-- C4: `generateForecast` returns exactly `periods` points; the `i`-th has
`linear = predict(n + i)` from the OLS fit, constant (flat) `ma`/`ema`/`wma`
equal to the respective smoother's last defined value over the whole
history, and `lower/upper = linear ∓ 1.96·se` with `se` the population
standard deviation of the OLS residuals — hence a constant band width and
`lower ≤ linear ≤ upper` at every point. -/
theorem forecast_points_spec (revenues : List ℝ) (periods maWindow : ℕ)
    (emaAlpha : ℝ) (i : ℕ) (hi : i < periods) :
    (generateForecast revenues periods maWindow emaAlpha).length = periods ∧
    ((generateForecast revenues periods maWindow emaAlpha).getD i fpZero).linear =
      (linearRegression revenues).predict ((revenues.length : ℝ) + (i : ℝ)) ∧
    ((generateForecast revenues periods maWindow emaAlpha).getD i fpZero).lower =
      ((generateForecast revenues periods maWindow emaAlpha).getD i fpZero).linear -
        1.96 * stdDev ((List.range revenues.length).map
          (fun k => revenues.getD k 0 - (linearRegression revenues).predict k)) ∧
    ((generateForecast revenues periods maWindow emaAlpha).getD i fpZero).upper =
      ((generateForecast revenues periods maWindow emaAlpha).getD i fpZero).linear +
        1.96 * stdDev ((List.range revenues.length).map
          (fun k => revenues.getD k 0 - (linearRegression revenues).predict k)) ∧
    ((generateForecast revenues periods maWindow emaAlpha).getD i fpZero).lower ≤
      ((generateForecast revenues periods maWindow emaAlpha).getD i fpZero).linear ∧
    ((generateForecast revenues periods maWindow emaAlpha).getD i fpZero).linear ≤
      ((generateForecast revenues periods maWindow emaAlpha).getD i fpZero).upper ∧
    (∀ j : ℕ, j < periods →
      ((generateForecast revenues periods maWindow emaAlpha).getD j fpZero).ma =
        ((generateForecast revenues periods maWindow emaAlpha).getD i fpZero).ma ∧
      ((generateForecast revenues periods maWindow emaAlpha).getD j fpZero).ema =
        ((generateForecast revenues periods maWindow emaAlpha).getD i fpZero).ema ∧
      ((generateForecast revenues periods maWindow emaAlpha).getD j fpZero).wma =
        ((generateForecast revenues periods maWindow emaAlpha).getD i fpZero).wma) ∧
    (∀ x : ℝ, ((movingAverage revenues maWindow).filterMap id).getLast? = some x →
      ((generateForecast revenues periods maWindow emaAlpha).getD i fpZero).ma = x) ∧
    (∀ x : ℝ, (exponentialMovingAverage revenues emaAlpha).getLast? = some x →
      ((generateForecast revenues periods maWindow emaAlpha).getD i fpZero).ema = x) ∧
    (∀ x : ℝ, ((weightedMovingAverage revenues maWindow).filterMap id).getLast? = some x →
      ((generateForecast revenues periods maWindow emaAlpha).getD i fpZero).wma = x) := by
  have hlen : (generateForecast revenues periods maWindow emaAlpha).length = periods := by
    unfold generateForecast
    rw [List.length_map, List.length_range]
  have hpt := generateForecast_getD revenues periods maWindow emaAlpha
  have hse : 0 ≤ stdDev ((List.range revenues.length).map
      (fun k => revenues.getD k 0 - (linearRegression revenues).predict k)) :=
    stdDev_nonneg _
  rw [hpt i hi]
  refine ⟨hlen, rfl, rfl, rfl, by simp only; nlinarith, by simp only; nlinarith,
    ?_, ?_, ?_, ?_⟩
  · intro j hj
    rw [hpt j hj]
    exact ⟨rfl, rfl, rfl⟩
  · intro x hx
    simp only
    rw [List.getLastD_eq_getLast?, hx]
    rfl
  · intro x hx
    simp only
    rw [List.getLastD_eq_getLast?, hx]
    rfl
  · intro x hx
    simp only
    rw [List.getLastD_eq_getLast?, hx]
    rfl

/-- C10 (implicit): when the history is shorter than the moving-average
window, `movingAverage` and `weightedMovingAverage` have no defined value at
any position, and every point returned by `generateForecast` silently falls
back to the numeric value `0` for `ma` and `wma` (the `|| 0` fallback); for
an empty history `ema = 0` as well. -/
theorem forecast_short_history_fallback (revenues : List ℝ)
    (periods maWindow : ℕ) (emaAlpha : ℝ)
    (hshort : revenues.length < maWindow) (i : ℕ) (hi : i < periods) :
    (movingAverage revenues maWindow).filterMap id = [] ∧
    (weightedMovingAverage revenues maWindow).filterMap id = [] ∧
    ((generateForecast revenues periods maWindow emaAlpha).getD i fpZero).ma = 0 ∧
    ((generateForecast revenues periods maWindow emaAlpha).getD i fpZero).wma = 0 ∧
    (revenues = [] →
      ((generateForecast revenues periods maWindow emaAlpha).getD i fpZero).ema = 0) := by
  have hmaNil : (movingAverage revenues maWindow).filterMap id = [] := by
    rw [List.filterMap_eq_nil_iff]
    intro a ha
    unfold movingAverage at ha
    obtain ⟨k, hk, rfl⟩ := List.mem_map.mp ha
    have hk' : k < revenues.length := List.mem_range.mp hk
    rw [if_pos (by omega)]
    rfl
  have hwmaNil : (weightedMovingAverage revenues maWindow).filterMap id = [] := by
    rw [List.filterMap_eq_nil_iff]
    intro a ha
    unfold weightedMovingAverage at ha
    obtain ⟨k, hk, rfl⟩ := List.mem_map.mp ha
    have hk' : k < revenues.length := List.mem_range.mp hk
    rw [if_pos (by omega)]
    rfl
  rw [generateForecast_getD revenues periods maWindow emaAlpha i hi]
  refine ⟨hmaNil, hwmaNil, ?_, ?_, ?_⟩
  · simp only
    rw [hmaNil]
    rfl
  · simp only
    rw [hwmaNil]
    rfl
  · intro hempty
    simp only
    rw [hempty]
    rfl

/-! ## Witnesses: closed instances of the hypothesised theorems -/

/-- Witness for C3 at `dates = [0]`, `revenues = [5]`. -/
theorem decomposition_additive_invariant_witness :
    ([(0 : Fin 7)] : List (Fin 7)).length = ([(5 : ℝ)] : List ℝ).length ∧
    0 < (additiveDecomposition (id : Fin 7 → Fin 7) [(0 : Fin 7)] [(5 : ℝ)]).length ∧
    ((additiveDecomposition (id : Fin 7 → Fin 7) [(0 : Fin 7)] [(5 : ℝ)]).getD 0
        ⟨0, 0, 0, 0, 0⟩).revenue =
      ((additiveDecomposition (id : Fin 7 → Fin 7) [(0 : Fin 7)] [(5 : ℝ)]).getD 0
        ⟨0, 0, 0, 0, 0⟩).trend +
      ((additiveDecomposition (id : Fin 7 → Fin 7) [(0 : Fin 7)] [(5 : ℝ)]).getD 0
        ⟨0, 0, 0, 0, 0⟩).seasonal +
      ((additiveDecomposition (id : Fin 7 → Fin 7) [(0 : Fin 7)] [(5 : ℝ)]).getD 0
        ⟨0, 0, 0, 0, 0⟩).residual := by
  have hlen : 0 < (additiveDecomposition (id : Fin 7 → Fin 7)
      [(0 : Fin 7)] [(5 : ℝ)]).length := by
    unfold additiveDecomposition
    rw [List.length_map, List.enum_length]
    norm_num
  exact ⟨rfl, hlen,
    decomposition_additive_invariant (id : Fin 7 → Fin 7) [(0 : Fin 7)]
      [(5 : ℝ)] ⟨0, 0, 0, 0, 0⟩ rfl 0 hlen⟩

/-- Witness for C4 at `revenues = [5]`, `periods = 1`, `maWindow = 1`,
`emaAlpha = 1/2`. -/
theorem forecast_points_spec_witness :
    (0 : ℕ) < 1 ∧
    (generateForecast [(5 : ℝ)] 1 1 (1 / 2)).length = 1 ∧
    ((movingAverage [(5 : ℝ)] 1).filterMap id).getLast? = some 5 ∧
    ((generateForecast [(5 : ℝ)] 1 1 (1 / 2)).getD 0 fpZero).ma = 5 ∧
    (exponentialMovingAverage [(5 : ℝ)] (1 / 2)).getLast? = some 5 ∧
    ((generateForecast [(5 : ℝ)] 1 1 (1 / 2)).getD 0 fpZero).ema = 5 ∧
    ((weightedMovingAverage [(5 : ℝ)] 1).filterMap id).getLast? = some 5 ∧
    ((generateForecast [(5 : ℝ)] 1 1 (1 / 2)).getD 0 fpZero).wma = 5 := by
  obtain ⟨hlen, -, -, -, -, -, -, hmaI, hemaI, hwmaI⟩ :=
    forecast_points_spec [(5 : ℝ)] 1 1 (1 / 2) 0 (by norm_num)
  have hma : ((movingAverage [(5 : ℝ)] 1).filterMap id).getLast? = some 5 := by
    have : movingAverage [(5 : ℝ)] 1 = [some 5] := by
      unfold movingAverage jsSlice
      norm_num [List.range_succ]
    rw [this]
    rfl
  have hema : (exponentialMovingAverage [(5 : ℝ)] (1 / 2)).getLast? = some 5 := rfl
  have hwma : ((weightedMovingAverage [(5 : ℝ)] 1).filterMap id).getLast? = some 5 := by
    have : weightedMovingAverage [(5 : ℝ)] 1 = [some 5] := by
      unfold weightedMovingAverage jsSlice
      norm_num [List.range_succ]
    rw [this]
    rfl
  exact ⟨by norm_num, hlen, hma, hmaI 5 hma, hema, hemaI 5 hema, hwma, hwmaI 5 hwma⟩

/-- Witness for C8 at `values = [1, 2]`, `window = 2`, `alpha = 1/2`. -/
theorem smoothing_warmup_markers_witness :
    (1 : ℕ) ≤ 2 ∧
    (movingAverage [(1 : ℝ), 2] 2).length = 2 ∧
    (movingAverage [(1 : ℝ), 2] 2).get? 0 = some none ∧
    (weightedMovingAverage [(1 : ℝ), 2] 2).get? 0 = some none ∧
    (exponentialMovingAverage [(1 : ℝ), 2] (1 / 2)).head? = some 1 := by
  obtain ⟨h1, -, h3, -, -, -, h7⟩ :=
    smoothing_warmup_markers [(1 : ℝ), 2] 2 (1 / 2) (by norm_num)
  have h30 := h3 0 (by norm_num) (by norm_num)
  exact ⟨by norm_num, h1, h30.1, h30.2, by rw [h7]; rfl⟩

/-- Witness for C9 at `n = 2`. -/
theorem regression_perfect_line_witness :
    (2 : ℕ) ≤ 2 ∧
    (linearRegression (linSeries 2)).slope = 1 ∧
    (linearRegression (linSeries 2)).intercept = 0 ∧
    (linearRegression (linSeries 2)).r_squared = 1 := by
  obtain ⟨h1, h2, h3⟩ := regression_perfect_line 2 (le_refl 2)
  exact ⟨le_refl 2, h1, h2, h3⟩

/-- Witness for C10 at the empty history with `maWindow = 1`. -/
theorem forecast_short_history_fallback_witness :
    ([] : List ℝ).length < 1 ∧
    (0 : ℕ) < 1 ∧
    ((generateForecast ([] : List ℝ) 1 1 (1 / 2)).getD 0 fpZero).ma = 0 ∧
    ((generateForecast ([] : List ℝ) 1 1 (1 / 2)).getD 0 fpZero).wma = 0 ∧
    ((generateForecast ([] : List ℝ) 1 1 (1 / 2)).getD 0 fpZero).ema = 0 := by
  obtain ⟨-, -, hma, hwma, hema⟩ :=
    forecast_short_history_fallback ([] : List ℝ) 1 1 (1 / 2) (by norm_num) 0
      (by norm_num)
  exact ⟨by norm_num, by norm_num, hma, hwma, hema rfl⟩

end

end LSRIS
